import Mathlib

/-!
# FootballScores: a shallow embedding of `bsearch.cpp` and `stats_eg.cpp`

Conventions of the embedding.

* A `std::vector<T>` is a `List T`; an iterator into it is an index (`Nat`), and the
  past-the-end iterator is the length of the list.
* A `std::map<int,int>` is the list of its entries in ascending key order, which is what the
  red-black tree stores; a `std::unordered_map<int,int>` is the list of its entries in an
  order that carries no meaning (the standard leaves it unspecified), a new entry is put in
  front.  Both containers keep at most one entry per key.
* The three global constants of `bsearch.cpp` are parameters of the functions that read
  them, so that statements can range over them; `TEST_RUNS`, `MAX_VALUE` and `EG_TO_FIND`
  are the values the source gives them.
* The keys and values of `bsearch.cpp` are integers (`Int`): they run from 0 to below
  `MAX_VALUE`, itself an `int`, so none leaves the range of `int`.
* The `int` counters of `stats_eg.cpp` are 32 bits wide: `to_int` narrows a value to `int`
  (two's complement), and is applied wherever the source stores a count in an `int` or
  increments one.  The result of `std::count_if` has the 64-bit difference type of the
  iterator; narrowing the exact count gives the same `int` as narrowing the count modulo
  2^64.  `size()` is a `size_t`, which holds the size of every vector.
* The standard algorithms (`std::iota`, `std::lower_bound`, `std::binary_search`,
  `std::count_if`, `std::find_if`, `std::remove_if`, `vector::erase`) are embedded as the
  loops the standard describes, not as their postconditions.
-/

namespace FootballScores

/-! ## bsearch.cpp -/

/-- Number of repeated queries per strategy (`const int TEST_RUNS = 1000`). -/
def TEST_RUNS : Nat := 1000

/-- Size of the data set (`const int MAX_VALUE = 1000000`). -/
def MAX_VALUE : Nat := 1000000

/-- The key every query looks for (`const int EG_TO_FIND = 75000`). -/
def EG_TO_FIND : Int := 75000

/-- `mk_pair(x)` is `std::make_pair(x, x)`. -/
def mk_pair (x : Int) : Int × Int := (x, x)

/-- `operator<` of `std::pair<int,int>`: lexicographic, written with `<` only. -/
def pair_lt (a b : Int × Int) : Bool :=
  decide (a.1 < b.1) || (!decide (b.1 < a.1) && decide (a.2 < b.2))

/-- `std::iota(first, last, value)`: overwrites the elements in turn with `value`,
`value + 1`, ... -/
def iota : List Int → Int → List Int
  | [], _ => []
  | _ :: rest, value => value :: iota rest (value + 1)

/-- The loop of `std::lower_bound` over the range `[first, first + count)` of `items`:
halve `count`, look at the middle element, keep the half that can hold `value`. -/
def lower_bound (items : List (Int × Int)) (value : Int × Int) (first count : Nat) : Nat :=
  if 0 < count then
    let step := count / 2
    match items[first + step]? with
    | some x =>
      if pair_lt x value then
        lower_bound items value (first + step + 1) (count - (step + 1))
      else
        lower_bound items value first step
    | none => first
  else first
termination_by count
decreasing_by
  all_goals simp_wf
  all_goals omega

/-- `std::binary_search(items.cbegin(), items.cend(), value)`:
`first = lower_bound(...); return first != last && !(value < *first);`. -/
def binary_search (items : List (Int × Int)) (value : Int × Int) : Bool :=
  let first := lower_bound items value 0 items.length
  match items[first]? with
  | some x => decide (first ≠ items.length) && !pair_lt value x
  | none => false

/-- A counted loop `for (int i = 0; i < n; ++i) body`, as a state transformer. -/
def for_runs {σ : Type} : Nat → (σ → σ) → σ → σ
  | 0, _, s => s
  | n + 1, body, s => for_runs n body (body s)

/-- `std::map<int,int>::insert`: puts the entry at its place in key order, and does
nothing when the key is already there. -/
def map_insert : List (Int × Int) → Int × Int → List (Int × Int)
  | [], e => [e]
  | x :: rest, e =>
    if e.1 < x.1 then e :: x :: rest
    else if x.1 < e.1 then x :: map_insert rest e
    else x :: rest

/-- `std::map<int,int>::find`, as the mapped value if the key is there. -/
def map_find : List (Int × Int) → Int → Option Int
  | [], _ => none
  | x :: rest, k =>
    if k < x.1 then none
    else if x.1 < k then map_find rest k
    else some x.2

/-- `items[k]` on a `std::map<int,int>`: the mapped value, and the map afterwards; a
missing key is first inserted with the value-initialised `int`, 0. -/
def map_index (items : List (Int × Int)) (k : Int) : Int × List (Int × Int) :=
  match map_find items k with
  | some v => (v, items)
  | none => (0, map_insert items (k, 0))

/-- The range constructor `std::map<int,int>(first, last)`: inserts the elements in turn. -/
def map_of_range (range : List (Int × Int)) : List (Int × Int) :=
  range.foldl map_insert []

/-- `std::unordered_map<int,int>::find`, as the mapped value if the key is there. -/
def umap_find : List (Int × Int) → Int → Option Int
  | [], _ => none
  | x :: rest, k => if x.1 = k then some x.2 else umap_find rest k

/-- `std::unordered_map<int,int>::insert`: adds the entry unless the key is already there. -/
def umap_insert (items : List (Int × Int)) (e : Int × Int) : List (Int × Int) :=
  match umap_find items e.1 with
  | some _ => items
  | none => e :: items

/-- `items[k]` on a `std::unordered_map<int,int>`: the mapped value, and the map
afterwards; a missing key is first inserted with the value 0. -/
def umap_index (items : List (Int × Int)) (k : Int) : Int × List (Int × Int) :=
  match umap_find items k with
  | some v => (v, items)
  | none => (0, umap_insert items (k, 0))

/-- The range constructor `std::unordered_map<int,int>(first, last)`. -/
def umap_of_range (range : List (Int × Int)) : List (Int × Int) :=
  range.foldl umap_insert []

/-- `test_intv`: `TEST_RUNS` binary searches for `mk_pair(EG_TO_FIND)`, results dropped.
The value returned is the vector after the call. -/
def test_intv (runs : Nat) (key : Int) (items : List (Int × Int)) : List (Int × Int) :=
  for_runs runs
    (fun v => let eg := mk_pair key; let _found := binary_search v eg; v) items

/-- `test_mapv`: `TEST_RUNS` times `items[EG_TO_FIND];`.  The value returned is the map
after the call. -/
def test_mapv (runs : Nat) (key : Int) (items : List (Int × Int)) : List (Int × Int) :=
  for_runs runs (fun m => (map_index m key).2) items

/-- `test_u_mapv`: `TEST_RUNS` times `items[EG_TO_FIND];` on the hashed map. -/
def test_u_mapv (runs : Nat) (key : Int) (items : List (Int × Int)) : List (Int × Int) :=
  for_runs runs (fun m => (umap_index m key).2) items

/-- The three containers of `main`. -/
structure Containers where
  zipped_intv : List (Int × Int)
  mapv : List (Int × Int)
  u_mapv : List (Int × Int)

/-- The set-up part of `main` (lines 45-59): `intv(MAX_VALUE)` filled by `std::iota` from 0,
`zipped_intv` by `std::transform` with `mk_pair`, the two maps by their range constructors. -/
def build (max_value : Nat) : Containers :=
  let intv := iota (List.replicate max_value 0) 0
  let zipped_intv := intv.map mk_pair
  ⟨zipped_intv, map_of_range zipped_intv, umap_of_range zipped_intv⟩

/-- `operator<<` of an output stream on a signed integer, default flags: decimal digits,
with a leading minus sign for a negative number. -/
def put_int (x : Int) : String :=
  if x < 0 then "-" ++ Nat.repr x.natAbs else Nat.repr x.natAbs

/-- The reporting part of `main` (lines 66-69) as a function of the three elapsed times
returned by `measure<std::chrono::nanoseconds>::execution`; `/` on two signed integers
truncates towards zero; `std::endl` writes a newline. -/
def report (runs : Int) (t_intv t_mapv t_u_mapv : Int) : String :=
  "vector<pair<int>>: " ++ put_int (t_intv.tdiv runs)
    ++ "\tmap<int, int>: " ++ put_int (t_mapv.tdiv runs)
    ++ "\tunordered_map<int>: " ++ put_int (t_u_mapv.tdiv runs)
    ++ "ns" ++ "\n"

/-! ## Result.h and stats_eg.cpp -/

/-- One fixture (struct GameResult of Result.h). -/
structure GameResult where
  home_team : String
  away_team : String
  home_score : Int
  away_score : Int
deriving DecidableEq, Repr

/-- `home_win`: the home side scored strictly more. -/
def home_win (gr : GameResult) : Bool :=
  decide (gr.home_score > gr.away_score)

/-- `IsHomeWin::operator()`. -/
def IsHomeWin (gr : GameResult) : Bool :=
  decide (gr.home_score > gr.away_score)

/-- `IsNamedTeam::operator()`: the named team is the home side or the away side. -/
def IsNamedTeam (team_name : String) (gr : GameResult) : Bool :=
  decide (team_name = gr.home_team) || decide (team_name = gr.away_team)

/-- Largest `int`. -/
def INT_MAX : Int := 2147483647

/-- Smallest `int`. -/
def INT_MIN : Int := -2147483648

/-- The value an integer takes when it is stored in an `int`: reduced modulo 2^32 into
`[INT_MIN, INT_MAX]`.  Used for the narrowing of a wider count and for `++` on an `int`
(where the language leaves overflow undefined, and the machine wraps). -/
def to_int (x : Int) : Int :=
  (x + 2147483648) % 4294967296 - 2147483648

/-- The loop of `std::count_if`: `n` is the running count. -/
def count_if_loop {α : Type} (pred : α → Bool) : List α → Int → Int
  | [], n => n
  | x :: rest, n => count_if_loop pred rest (if pred x then n + 1 else n)

/-- `std::count_if(v.cbegin(), v.cend(), pred)`. -/
def count_if {α : Type} (pred : α → Bool) (v : List α) : Int :=
  count_if_loop pred v 0

/-- `home_games_won_alg`: `std::count_if` with `IsHomeWin()`, stored in an `int`. -/
def home_games_won_alg (results : List GameResult) : Int :=
  let home_won := to_int (count_if IsHomeWin results)
  home_won

/-- `home_games_won`: the range-based loop, `++home_won` on an `int`. -/
def home_games_won (results : List GameResult) : Int :=
  results.foldl
    (fun home_won gr =>
      if gr.home_score > gr.away_score then to_int (home_won + 1) else home_won) 0

/-- The iterator loop of `home_games_won_03`, `it` being the position of the iterator:
`for (it = ...; it < results.cend(); ++it) if (it->home_score > it->away_score) ++home_won;`. -/
def home_games_won_03_loop (results : List GameResult) (it : Nat) (home_won : Int) : Int :=
  if h : it < results.length then
    if results[it].home_score > results[it].away_score then
      home_games_won_03_loop results (it + 1) (to_int (home_won + 1))
    else
      home_games_won_03_loop results (it + 1) home_won
  else home_won
termination_by results.length - it

/-- `home_games_won_03`: the iterator loop from `cbegin()` with the count at 0. -/
def home_games_won_03 (results : List GameResult) : Int :=
  home_games_won_03_loop results 0 0

/-- `std::find_if` from position `first` to the end: the first position whose element
satisfies `pred`, or the end. -/
def find_if {α : Type} (pred : α → Bool) (v : List α) (first : Nat) : Nat :=
  if h : first < v.length then
    if pred v[first] then first else find_if pred v (first + 1)
  else first
termination_by v.length - first

/-- The loop of `std::remove_if` after its `find_if`: `i` reads, `first` writes;
`if (!pred(*i)) { *first = std::move(*i); ++first; }`.  `GameResult` declares a destructor,
so it has no move assignment and the assignment copies: the element read stays as it is. -/
def remove_if_loop {α : Type} (pred : α → Bool) (v : List α) (first i : Nat) : List α × Nat :=
  if h : i < v.length then
    if !pred v[i] then
      remove_if_loop pred (v.set first v[i]) (first + 1) (i + 1)
    else
      remove_if_loop pred v first (i + 1)
  else (v, first)
termination_by v.length - i
decreasing_by
  all_goals simp_wf
  all_goals omega

/-- `std::remove_if(begin, end, pred)`: the vector afterwards and the iterator returned. -/
def remove_if {α : Type} (pred : α → Bool) (v : List α) : List α × Nat :=
  let first := find_if pred v 0
  if first < v.length then remove_if_loop pred v first (first + 1) else (v, first)

/-- `vector::erase(first, last)`: drops the elements of `[first, last)`. -/
def erase {α : Type} (v : List α) (first last : Nat) : List α :=
  v.take first ++ v.drop last

/-- `brighton_pred` of `print_brighton_stats`: `std::bind(IsNamedTeam(), brighton, _1)`. -/
def brighton_pred (gr : GameResult) : Bool :=
  IsNamedTeam "Brighton" gr

/-- `home_pred` of `print_brighton_stats`: `std::bind(IsHomeWin(), _1)`. -/
def home_pred (gr : GameResult) : Bool :=
  IsHomeWin gr

/-- `brighton_home_win_pred` of `print_brighton_stats`:
`std::bind(std::logical_and<bool>(), brighton_pred, home_pred)`; a nested bind expression
is called on the argument of the outer call. -/
def brighton_home_win_pred (gr : GameResult) : Bool :=
  brighton_pred gr && home_pred gr

/-- What `print_brighton_stats` computes: the two counts (each an `int`), the two sizes it
prints (each a `size_t`), the vector it leaves behind and the text written to the standard
output. -/
structure BrightonStats where
  brighton_played : Int
  brighton_home_win : Int
  size_before : Nat
  size_after : Nat
  results : List GameResult
  output : String
deriving DecidableEq, Repr

/-- `print_brighton_stats`. -/
def print_brighton_stats (results : List GameResult) : BrightonStats :=
  let brighton := "Brighton"
  let brighton_played := to_int (count_if brighton_pred results)
  let brighton_home_win := to_int (count_if brighton_home_win_pred results)
  let line1 := brighton ++ " played " ++ put_int brighton_played ++ "\n"
  let line2 := put_int brighton_home_win ++ " home games were won by " ++ brighton ++ "\n"
  let size_before := results.length
  let removed := remove_if brighton_pred results
  let results1 := erase removed.1 removed.2 removed.1.length
  let size_after := results1.length
  let line3 := Nat.repr size_before ++ " " ++ Nat.repr size_after ++ " " ++ "\n"
  ⟨brighton_played, brighton_home_win, size_before, size_after, results1,
    line1 ++ line2 ++ line3⟩

/-- State of the `std::ifstream`: the characters not yet extracted and two of the state
flags. -/
structure IStream where
  rest : List Char
  eofbit : Bool
  failbit : Bool
deriving DecidableEq, Repr

/-- `std::isspace` in the "C" locale: space, and the controls from tab to carriage return. -/
def isspace (c : Char) : Bool :=
  c.toNat = 32 || (9 ≤ c.toNat && c.toNat ≤ 13)

/-- The digits 0 to 9. -/
def isdigit (c : Char) : Bool :=
  48 ≤ c.toNat && c.toNat ≤ 57

/-- The `sentry` of a formatted input function: a stream that is not good gets `failbit`
and nothing is read; otherwise leading white space is skipped, and reaching the end of the
file while skipping sets `eofbit` and `failbit`.  The Boolean says whether to go on. -/
def sentry (s : IStream) : IStream × Bool :=
  if s.eofbit || s.failbit then (⟨s.rest, s.eofbit, true⟩, false)
  else
    let r := s.rest.dropWhile isspace
    if r.isEmpty then (⟨[], true, true⟩, false) else (⟨r, false, false⟩, true)

/-- `infile >> str` for a `std::string`: with a successful sentry the string is erased and
takes the characters up to the next white space; reaching the end of the file sets
`eofbit`.  With a failed sentry the string keeps its value `old`. -/
def get_string (s : IStream) (old : String) : IStream × String :=
  match sentry s with
  | (s1, false) => (s1, old)
  | (s1, true) =>
    let word := s1.rest.takeWhile (fun c => !isspace c)
    let r := s1.rest.dropWhile (fun c => !isspace c)
    (⟨r, r.isEmpty, word.isEmpty⟩, String.mk word)

/-- `infile >> n` for an `int`: with a successful sentry an optional sign and the decimal
digits that follow are taken; no digit gives 0 and `failbit`, a value out of range gives
the nearest bound and `failbit`; reaching the end of the file sets `eofbit`.  With a
failed sentry the variable keeps its value `old`. -/
def get_int (s : IStream) (old : Int) : IStream × Int :=
  match sentry s with
  | (s1, false) => (s1, old)
  | (s1, true) =>
    let signed : Bool × List Char :=
      match s1.rest with
      | c :: r => if c = '-' then (true, r) else if c = '+' then (false, r) else (false, c :: r)
      | [] => (false, [])
    let digits := signed.2.takeWhile isdigit
    let r := signed.2.dropWhile isdigit
    let n : Nat := digits.foldl (fun acc c => acc * 10 + (c.toNat - 48)) 0
    let v : Int := if signed.1 then -(n : Int) else (n : Int)
    if digits.isEmpty then (⟨r, r.isEmpty, true⟩, 0)
    else if v > INT_MAX then (⟨r, r.isEmpty, true⟩, INT_MAX)
    else if v < INT_MIN then (⟨r, r.isEmpty, true⟩, INT_MIN)
    else (⟨r, r.isEmpty, false⟩, v)

/-- The loop `while (!infile.eof()) { GameResult result; infile >> ...; push_back }` of
`readCSV`.  `junk` stands for the two scores of the default-initialised `result`, which
the language leaves indeterminate.  The loop need not end (a field that is not a number
sets `failbit` without ever reaching the end of the file), so it runs on `fuel`: `none`
means that the fuel ran out before the loop ended. -/
def readCSV_loop (junk : Int × Int) (fuel : Nat) (s : IStream) (results : List GameResult) :
    Option (List GameResult) :=
  if s.eofbit then some results
  else
    match fuel with
    | 0 => none
    | fuel + 1 =>
      let result : GameResult := ⟨"", "", junk.1, junk.2⟩
      let r1 := get_string s result.home_team
      let r2 := get_string r1.1 result.away_team
      let r3 := get_int r2.1 result.home_score
      let r4 := get_int r3.1 result.away_score
      readCSV_loop junk fuel r4.1 (results ++ [⟨r1.2, r2.2, r3.2, r4.2⟩])

/-- `readCSV` of stats_eg.cpp.  `file` is the content of the data file, `none` when it
cannot be opened (then the function returns at once). -/
def readCSV (file : Option (List Char)) (fuel : Nat) (junk : Int × Int)
    (results : List GameResult) : Option (List GameResult) :=
  match file with
  | none => some results
  | some content => readCSV_loop junk fuel ⟨content, false, false⟩ results

/-! ## The content the containers are meant to have -/

/-- The pairs `(0,0), ..., (n-1,n-1)` in ascending order of key.  This list is not part of
the program: the lemmas below show that `build` produces it, and reason on it. -/
def diag (n : Nat) : List (Int × Int) :=
  (List.range n).map (fun (i : Nat) => ((i : Int), (i : Int)))

/-! ## Lemmas on the containers of bsearch.cpp -/

theorem iota_eq (l : List Int) (v : Int) :
    iota l v = (List.range l.length).map (fun (i : Nat) => v + (i : Int)) := by
  induction l generalizing v with
  | nil => simp [iota]
  | cons a rest ih =>
    simp only [iota, List.length_cons, List.range_succ_eq_map, List.map_cons, List.map_map]
    rw [ih]
    simp
    intro i _
    omega

theorem build_zipped (n : Nat) : (build n).zipped_intv = diag n := by
  simp [build, diag, iota_eq, mk_pair]

theorem diag_succ (n : Nat) : diag (n + 1) = diag n ++ [((n : Int), (n : Int))] := by
  simp [diag, List.range_succ]

theorem mem_diag (n : Nat) (p : Int × Int) :
    p ∈ diag n ↔ ∃ i : Nat, i < n ∧ p = ((i : Int), (i : Int)) := by
  simp [diag, eq_comm]

theorem length_diag (n : Nat) : (diag n).length = n := by
  simp [diag]

theorem getElem?_diag (n i : Nat) (h : i < n) : (diag n)[i]? = some ((i : Int), (i : Int)) := by
  simp [diag, List.getElem?_range h]

theorem getElem?_diag_none (n i : Nat) (h : n ≤ i) : (diag n)[i]? = none := by
  simp [diag, h]

theorem map_insert_last (l : List (Int × Int)) (e : Int × Int)
    (h : ∀ x ∈ l, x.1 < e.1) : map_insert l e = l ++ [e] := by
  induction l with
  | nil => simp [map_insert]
  | cons x rest ih =>
    have hx : x.1 < e.1 := h x (by simp)
    have hr : ∀ y ∈ rest, y.1 < e.1 := fun y hy => h y (by simp [hy])
    simp [map_insert, hx, not_lt.mpr (le_of_lt hx), ih hr]

theorem map_of_range_diag (n : Nat) : map_of_range (diag n) = diag n := by
  induction n with
  | zero => simp [map_of_range, diag]
  | succ n ih =>
    unfold map_of_range at ih ⊢
    rw [diag_succ, List.foldl_append, ih]
    simp only [List.foldl_cons, List.foldl_nil]
    apply map_insert_last
    intro x hx
    obtain ⟨i, hi, rfl⟩ := (mem_diag n x).1 hx
    simp [hi]

theorem umap_find_none (l : List (Int × Int)) (k : Int) (h : ∀ x ∈ l, x.1 ≠ k) :
    umap_find l k = none := by
  induction l with
  | nil => simp [umap_find]
  | cons x rest ih =>
    have hx : x.1 ≠ k := h x (by simp)
    simp [umap_find, hx, ih (fun y hy => h y (by simp [hy]))]

theorem umap_find_mem (l : List (Int × Int)) (k v : Int)
    (hk : (l.map Prod.fst).Nodup) (h : (k, v) ∈ l) : umap_find l k = some v := by
  induction l with
  | nil => simp at h
  | cons x rest ih =>
    simp only [List.map_cons, List.nodup_cons] at hk
    rcases List.mem_cons.1 h with h1 | h1
    · subst h1
      simp [umap_find]
    · have hne : x.1 ≠ k := by
        intro hxk
        apply hk.1
        rw [hxk]
        exact List.mem_map_of_mem Prod.fst h1
      simp [umap_find, hne, ih hk.2 h1]

theorem map_find_none (l : List (Int × Int)) (k : Int) (h : ∀ x ∈ l, x.1 ≠ k) :
    map_find l k = none := by
  induction l with
  | nil => simp [map_find]
  | cons x rest ih =>
    have hx : x.1 ≠ k := h x (by simp)
    have ih1 := ih (fun y hy => h y (by simp [hy]))
    unfold map_find
    by_cases h1 : k < x.1
    · simp [h1]
    · have h2 : x.1 < k := by omega
      simp [h1, h2, ih1]

theorem map_find_mem (l : List (Int × Int)) (k v : Int)
    (hs : l.Pairwise (fun a b => a.1 < b.1)) (h : (k, v) ∈ l) : map_find l k = some v := by
  induction l with
  | nil => simp at h
  | cons x rest ih =>
    rw [List.pairwise_cons] at hs
    rcases List.mem_cons.1 h with h1 | h1
    · subst h1
      simp [map_find]
    · have hlt : x.1 < k := hs.1 _ h1
      simp [map_find, hlt, not_lt.mpr (le_of_lt hlt), ih hs.2 h1]

theorem pairwise_diag (n : Nat) : (diag n).Pairwise (fun a b => a.1 < b.1) := by
  unfold diag
  rw [List.pairwise_map]
  exact (List.pairwise_lt_range n).imp (fun h => by simpa using h)

theorem nodup_keys_diag (n : Nat) : ((diag n).map Prod.fst).Nodup := by
  have h := pairwise_diag n
  rw [List.Nodup, List.pairwise_map]
  exact h.imp (fun h => ne_of_lt h)

theorem umap_of_range_diag (n : Nat) : umap_of_range (diag n) = (diag n).reverse := by
  induction n with
  | zero => simp [umap_of_range, diag]
  | succ n ih =>
    unfold umap_of_range at ih ⊢
    rw [diag_succ, List.foldl_append, ih]
    simp only [List.foldl_cons, List.foldl_nil, List.reverse_append, List.reverse_cons,
      List.reverse_nil, List.nil_append, List.singleton_append]
    unfold umap_insert
    rw [umap_find_none]
    intro x hx
    obtain ⟨i, hi, rfl⟩ := (mem_diag n x).1 (List.mem_reverse.1 hx)
    simp
    omega

theorem build_mapv (n : Nat) : (build n).mapv = diag n := by
  have h := build_zipped n
  simp only [build] at h ⊢
  rw [h, map_of_range_diag]

theorem build_u_mapv (n : Nat) : (build n).u_mapv = (diag n).reverse := by
  have h := build_zipped n
  simp only [build] at h ⊢
  rw [h, umap_of_range_diag]

theorem pair_lt_diag (i k : Int) : pair_lt (i, i) (k, k) = decide (i < k) := by
  unfold pair_lt
  by_cases h : i < k <;> simp [h]

theorem lower_bound_diag (n : Nat) (k : Int) (c : Nat)
    (hc : ∀ i : Nat, i < n → ((i : Int) < k ↔ i < c)) :
    ∀ count first : Nat, first ≤ c → c ≤ first + count → first + count ≤ n →
      lower_bound (diag n) (k, k) first count = c := by
  intro count
  induction count using Nat.strong_induction_on with
  | _ count ih =>
    intro first h1 h2 h3
    rw [lower_bound]
    by_cases hcount : 0 < count
    · have hlt : first + count / 2 < n := by omega
      simp only [hcount, if_true, getElem?_diag n _ hlt, pair_lt_diag]
      by_cases hk : ((first + count / 2 : Nat) : Int) < k
      · rw [if_pos (by simpa using hk)]
        have := (hc _ hlt).1 hk
        exact ih _ (by omega) _ (by omega) (by omega) (by omega)
      · rw [if_neg (by simpa using hk)]
        have : ¬ (first + count / 2 < c) := fun h => hk ((hc _ hlt).2 h)
        exact ih _ (by omega) _ (by omega) (by omega) (by omega)
    · simp only [hcount, if_false]
      omega

theorem binary_search_diag_found (n : Nat) (k : Int) (h0 : 0 ≤ k) (h1 : k < n) :
    binary_search (diag n) (mk_pair k) = true := by
  obtain ⟨c, rfl⟩ := Int.eq_ofNat_of_zero_le h0
  have hcn : c < n := by exact_mod_cast h1
  have hlb := lower_bound_diag n (c : Int) c (fun i _ => by simp) n 0
    (by omega) (by omega) (by omega)
  unfold binary_search mk_pair
  simp only [length_diag, hlb, getElem?_diag n c hcn]
  simp [pair_lt, Nat.ne_of_lt hcn]

theorem binary_search_diag_absent (n : Nat) (k : Int) (h : k < 0 ∨ (n : Int) ≤ k) :
    binary_search (diag n) (mk_pair k) = false := by
  unfold binary_search mk_pair
  rcases h with h | h
  · have hlb := lower_bound_diag n k 0 (fun i _ => by constructor <;> intro h' <;> omega) n 0
      (by omega) (by omega) (by omega)
    simp only [length_diag, hlb]
    by_cases hn : 0 < n
    · simp only [getElem?_diag n 0 hn]
      simp [pair_lt, h]
    · simp [getElem?_diag_none n 0 (by omega)]
  · have hlb := lower_bound_diag n k n (fun i hi => by constructor <;> intro _ <;> omega) n 0
      (by omega) (by omega) (by omega)
    simp only [length_diag, hlb]
    simp [getElem?_diag_none n n (le_refl n)]

theorem for_runs_fixed {σ : Type} (body : σ → σ) (s : σ) (h : body s = s) (n : Nat) :
    for_runs n body s = s := by
  induction n with
  | zero => rfl
  | succ n ih => simp [for_runs, h, ih]

theorem test_intv_eq (runs : Nat) (key : Int) (items : List (Int × Int)) :
    test_intv runs key items = items := by
  unfold test_intv
  induction runs with
  | zero => rfl
  | succ n ih => simpa [for_runs] using ih

theorem map_insert_mem (l : List (Int × Int)) (e : Int × Int) (h : ∀ x ∈ l, x.1 ≠ e.1)
    (p : Int × Int) : p ∈ map_insert l e ↔ p ∈ l ∨ p = e := by
  induction l with
  | nil => simp [map_insert]
  | cons x rest ih =>
    have hx : x.1 ≠ e.1 := h x (by simp)
    have ih1 := ih (fun y hy => h y (by simp [hy]))
    unfold map_insert
    by_cases h1 : e.1 < x.1
    · simp only [h1, if_true, List.mem_cons]
      tauto
    · have h2 : x.1 < e.1 := by omega
      simp only [h1, h2, if_false, if_true, List.mem_cons, ih1]
      tauto

theorem map_insert_length (l : List (Int × Int)) (e : Int × Int) (h : ∀ x ∈ l, x.1 ≠ e.1) :
    (map_insert l e).length = l.length + 1 := by
  induction l with
  | nil => simp [map_insert]
  | cons x rest ih =>
    have hx : x.1 ≠ e.1 := h x (by simp)
    have ih1 := ih (fun y hy => h y (by simp [hy]))
    unfold map_insert
    by_cases h1 : e.1 < x.1
    · simp [h1]
    · have h2 : x.1 < e.1 := by omega
      simp [h1, h2, ih1]

theorem map_find_insert (l : List (Int × Int)) (e : Int × Int) (h : ∀ x ∈ l, x.1 ≠ e.1) :
    map_find (map_insert l e) e.1 = some e.2 := by
  induction l with
  | nil => simp [map_insert, map_find]
  | cons x rest ih =>
    have hx : x.1 ≠ e.1 := h x (by simp)
    have ih1 := ih (fun y hy => h y (by simp [hy]))
    unfold map_insert
    by_cases h1 : e.1 < x.1
    · simp [h1, map_find]
    · have h2 : x.1 < e.1 := by omega
      simp [h1, h2, map_find, ih1]

theorem keys_diag_ne (n : Nat) (k : Int) (h : k < 0 ∨ (n : Int) ≤ k) :
    ∀ x ∈ diag n, x.1 ≠ k := by
  intro x hx
  obtain ⟨i, hi, rfl⟩ := (mem_diag n x).1 hx
  simp only
  omega

theorem test_mapv_absent (l : List (Int × Int)) (k : Int) (h : ∀ x ∈ l, x.1 ≠ k)
    (runs : Nat) (hr : 0 < runs) : test_mapv runs k l = map_insert l (k, 0) := by
  obtain ⟨r, rfl⟩ := Nat.exists_eq_succ_of_ne_zero (Nat.ne_of_gt hr)
  unfold test_mapv
  simp only [for_runs, map_index, map_find_none l k h]
  apply for_runs_fixed
  have := map_find_insert l (k, 0) h
  simp only at this
  simp [this]

theorem test_u_mapv_absent (l : List (Int × Int)) (k : Int) (h : ∀ x ∈ l, x.1 ≠ k)
    (runs : Nat) (hr : 0 < runs) : test_u_mapv runs k l = (k, 0) :: l := by
  obtain ⟨r, rfl⟩ := Nat.exists_eq_succ_of_ne_zero (Nat.ne_of_gt hr)
  unfold test_u_mapv
  simp only [for_runs, umap_index, umap_insert, umap_find_none l k h]
  apply for_runs_fixed
  simp [umap_find]

/-! ## Claims on bsearch.cpp -/

/-- C1: for a target key `k` with `0 ≤ k < MAX_VALUE`, on the containers built by `main`,
the binary search of the sorted vector for `mk_pair(k)` reports found, and `items[k]` on the
ordered map and on the hashed map both return `k`. -/
theorem present_key_is_found (max_value : Nat) (k : Int) (h0 : 0 ≤ k) (h1 : k < max_value) :
    binary_search (build max_value).zipped_intv (mk_pair k) = true
      ∧ (map_index (build max_value).mapv k).1 = k
      ∧ (umap_index (build max_value).u_mapv k).1 = k := by
  obtain ⟨c, rfl⟩ := Int.eq_ofNat_of_zero_le h0
  have hc : c < max_value := by exact_mod_cast h1
  have hmem : (((c : Nat) : Int), ((c : Nat) : Int)) ∈ diag max_value :=
    (mem_diag max_value _).2 ⟨c, hc, rfl⟩
  refine ⟨?_, ?_, ?_⟩
  · rw [build_zipped]
    exact binary_search_diag_found max_value _ h0 h1
  · rw [build_mapv, map_index, map_find_mem _ _ _ (pairwise_diag max_value) hmem]
  · rw [build_u_mapv, umap_index, umap_find_mem _ _ _ _ (List.mem_reverse.2 hmem)]
    rw [List.map_reverse]
    exact List.nodup_reverse.2 (nodup_keys_diag max_value)

/-- The constants of the source, 75000 in a range of 1000000, and the small scenario, 5 in
a range of 10, are instances of C1. -/
theorem present_key_is_found_witness :
    (binary_search (build MAX_VALUE).zipped_intv (mk_pair EG_TO_FIND) = true
      ∧ (map_index (build MAX_VALUE).mapv EG_TO_FIND).1 = EG_TO_FIND
      ∧ (umap_index (build MAX_VALUE).u_mapv EG_TO_FIND).1 = EG_TO_FIND)
    ∧ (binary_search (build 10).zipped_intv (mk_pair 5) = true
      ∧ (map_index (build 10).mapv 5).1 = 5
      ∧ (umap_index (build 10).u_mapv 5).1 = 5) :=
  ⟨present_key_is_found MAX_VALUE EG_TO_FIND (by decide) (by decide),
    present_key_is_found 10 5 (by decide) (by decide)⟩

/-- C2: for a key `k` outside `[0, MAX_VALUE)`, on the containers built by `main`, the
binary search for `mk_pair(k)` reports not found and `test_intv` leaves the vector as it
was; `items[k]` on the ordered map and on the hashed map returns 0 and leaves a map that
holds the old entries and `(k, 0)`; after the repeated queries of `test_mapv` and
`test_u_mapv` (at least one run) each map holds `MAX_VALUE + 1` entries, namely the
original ones and `(k, 0)`. -/
theorem absent_key_is_inserted (max_value runs : Nat) (k : Int)
    (hk : k < 0 ∨ (max_value : Int) ≤ k) (hruns : 0 < runs) :
    (binary_search (build max_value).zipped_intv (mk_pair k) = false
      ∧ test_intv runs k (build max_value).zipped_intv = (build max_value).zipped_intv)
    ∧ ((map_index (build max_value).mapv k).1 = 0
      ∧ (∀ p, p ∈ (map_index (build max_value).mapv k).2 ↔
          p ∈ (build max_value).mapv ∨ p = (k, 0))
      ∧ (test_mapv runs k (build max_value).mapv).length = max_value + 1
      ∧ (∀ p, p ∈ test_mapv runs k (build max_value).mapv ↔
          p ∈ (build max_value).mapv ∨ p = (k, 0)))
    ∧ ((umap_index (build max_value).u_mapv k).1 = 0
      ∧ (∀ p, p ∈ (umap_index (build max_value).u_mapv k).2 ↔
          p ∈ (build max_value).u_mapv ∨ p = (k, 0))
      ∧ (test_u_mapv runs k (build max_value).u_mapv).length = max_value + 1
      ∧ (∀ p, p ∈ test_u_mapv runs k (build max_value).u_mapv ↔
          p ∈ (build max_value).u_mapv ∨ p = (k, 0))) := by
  have hne := keys_diag_ne max_value k hk
  have hne2 : ∀ x ∈ diag max_value, x.1 ≠ ((k, 0) : Int × Int).1 := hne
  have hner : ∀ x ∈ (diag max_value).reverse, x.1 ≠ k :=
    fun x hx => hne x (List.mem_reverse.1 hx)
  refine ⟨⟨?_, test_intv_eq _ _ _⟩, ?_, ?_⟩
  · rw [build_zipped]
    exact binary_search_diag_absent max_value k hk
  · rw [build_mapv, test_mapv_absent _ _ hne _ hruns, map_index, map_find_none _ _ hne]
    refine ⟨rfl, map_insert_mem _ _ hne2, ?_, map_insert_mem _ _ hne2⟩
    rw [map_insert_length _ _ hne2, length_diag]
  · rw [build_u_mapv, test_u_mapv_absent _ _ hner _ hruns, umap_index,
      umap_find_none _ _ hner]
    simp only [umap_insert, umap_find_none _ _ hner]
    refine ⟨?_, ?_, ?_, ?_⟩
    · trivial
    · intro p
      simp only [List.mem_cons]
      tauto
    · simp [length_diag]
    · intro p
      simp only [List.mem_cons]
      tauto

/-- The boundary key `k = MAX_VALUE`, with the constants of the source, is an instance
of C2. -/
theorem absent_key_is_inserted_witness :
    (binary_search (build MAX_VALUE).zipped_intv (mk_pair MAX_VALUE) = false
      ∧ (map_index (build MAX_VALUE).mapv MAX_VALUE).1 = 0
      ∧ (test_mapv TEST_RUNS MAX_VALUE (build MAX_VALUE).mapv).length = MAX_VALUE + 1
      ∧ (umap_index (build MAX_VALUE).u_mapv MAX_VALUE).1 = 0
      ∧ (test_u_mapv TEST_RUNS MAX_VALUE (build MAX_VALUE).u_mapv).length = MAX_VALUE + 1) :=
  have h := absent_key_is_inserted MAX_VALUE TEST_RUNS MAX_VALUE (Or.inr (le_refl _))
    (by decide)
  ⟨h.1.1, h.2.1.1, h.2.1.2.2.1, h.2.2.1, h.2.2.2.2.1⟩

/-- C3: for every `MAX_VALUE`, each of the three containers built by `main` holds the
entry `(k, k)` for each `k` with `0 ≤ k < MAX_VALUE` and no other entry, holds no key
twice, and has size `MAX_VALUE`; so the three hold the same set of pairs. -/
theorem containers_hold_range (max_value : Nat) :
    ((∀ p, p ∈ (build max_value).zipped_intv ↔
          ∃ i : Nat, i < max_value ∧ p = ((i : Int), (i : Int)))
      ∧ ((build max_value).zipped_intv.map Prod.fst).Nodup
      ∧ (build max_value).zipped_intv.length = max_value)
    ∧ ((∀ p, p ∈ (build max_value).mapv ↔
          ∃ i : Nat, i < max_value ∧ p = ((i : Int), (i : Int)))
      ∧ ((build max_value).mapv.map Prod.fst).Nodup
      ∧ (build max_value).mapv.length = max_value)
    ∧ ((∀ p, p ∈ (build max_value).u_mapv ↔
          ∃ i : Nat, i < max_value ∧ p = ((i : Int), (i : Int)))
      ∧ ((build max_value).u_mapv.map Prod.fst).Nodup
      ∧ (build max_value).u_mapv.length = max_value)
    ∧ (∀ p, (p ∈ (build max_value).zipped_intv ↔ p ∈ (build max_value).mapv)
          ∧ (p ∈ (build max_value).mapv ↔ p ∈ (build max_value).u_mapv)) := by
  rw [build_zipped, build_mapv, build_u_mapv]
  refine ⟨⟨mem_diag _, nodup_keys_diag _, length_diag _⟩,
    ⟨mem_diag _, nodup_keys_diag _, length_diag _⟩, ⟨?_, ?_, ?_⟩, ?_⟩
  · intro p
    rw [List.mem_reverse]
    exact mem_diag _ p
  · rw [List.map_reverse]
    exact List.nodup_reverse.2 (nodup_keys_diag _)
  · rw [List.length_reverse]
    exact length_diag _
  · intro p
    simp

/-- C4: for every `MAX_VALUE > 0`, the vector of pairs built by `main` is strictly
ascending by key: the key at index `i` is strictly less than the key at index `j` whenever
`i < j`; so no key occurs twice, and the vector is sorted under the ordering of pairs that
`std::binary_search` uses. -/
theorem zipped_strictly_ascending (max_value : Nat) (hmax : 0 < max_value) :
    (∀ (i j : Nat) (a b : Int × Int), (build max_value).zipped_intv[i]? = some a →
        (build max_value).zipped_intv[j]? = some b → i < j → a.1 < b.1)
    ∧ ((build max_value).zipped_intv.map Prod.fst).Nodup
    ∧ (build max_value).zipped_intv.Pairwise (fun a b => pair_lt a b = true) := by
  rw [build_zipped]
  have _ := hmax
  refine ⟨?_, nodup_keys_diag _, ?_⟩
  · intro i j a b hi hj hij
    have hjn : j < max_value := by
      by_contra hcon
      rw [getElem?_diag_none _ _ (by omega)] at hj
      cases hj
    rw [getElem?_diag _ _ (by omega)] at hi
    rw [getElem?_diag _ _ hjn] at hj
    cases hi
    cases hj
    simp only
    exact_mod_cast hij
  · exact (pairwise_diag max_value).imp (fun h => by simp [pair_lt, h])

/-- The vector of the source, of size 1000000, is an instance of C4. -/
theorem zipped_strictly_ascending_witness :
    0 < MAX_VALUE
    ∧ (∀ (i j : Nat) (a b : Int × Int), (build MAX_VALUE).zipped_intv[i]? = some a →
        (build MAX_VALUE).zipped_intv[j]? = some b → i < j → a.1 < b.1)
    ∧ ((build MAX_VALUE).zipped_intv.map Prod.fst).Nodup
    ∧ (build MAX_VALUE).zipped_intv.Pairwise (fun a b => pair_lt a b = true) :=
  ⟨by decide, zipped_strictly_ascending MAX_VALUE (by decide)⟩

/-- C5: when the target key lies in `[0, MAX_VALUE)`, running `test_intv`, `test_mapv` and
`test_u_mapv`, whatever the number of runs, leaves each of the three containers exactly as
it was built. -/
theorem present_key_leaves_containers (max_value runs : Nat) (k : Int)
    (h0 : 0 ≤ k) (h1 : k < max_value) :
    test_intv runs k (build max_value).zipped_intv = (build max_value).zipped_intv
      ∧ test_mapv runs k (build max_value).mapv = (build max_value).mapv
      ∧ test_u_mapv runs k (build max_value).u_mapv = (build max_value).u_mapv := by
  obtain ⟨c, rfl⟩ := Int.eq_ofNat_of_zero_le h0
  have hc : c < max_value := by exact_mod_cast h1
  have hmem : (((c : Nat) : Int), ((c : Nat) : Int)) ∈ diag max_value :=
    (mem_diag max_value _).2 ⟨c, hc, rfl⟩
  refine ⟨test_intv_eq _ _ _, ?_, ?_⟩
  · rw [build_mapv]
    apply for_runs_fixed
    simp [map_index, map_find_mem _ _ _ (pairwise_diag max_value) hmem]
  · rw [build_u_mapv]
    apply for_runs_fixed
    have hnd : (((diag max_value).reverse).map Prod.fst).Nodup := by
      rw [List.map_reverse]
      exact List.nodup_reverse.2 (nodup_keys_diag max_value)
    simp [umap_index, umap_find_mem _ _ _ hnd (List.mem_reverse.2 hmem)]

/-- The constants of the source are an instance of C5. -/
theorem present_key_leaves_containers_witness :
    test_intv TEST_RUNS EG_TO_FIND (build MAX_VALUE).zipped_intv = (build MAX_VALUE).zipped_intv
      ∧ test_mapv TEST_RUNS EG_TO_FIND (build MAX_VALUE).mapv = (build MAX_VALUE).mapv
      ∧ test_u_mapv TEST_RUNS EG_TO_FIND (build MAX_VALUE).u_mapv = (build MAX_VALUE).u_mapv :=
  present_key_leaves_containers MAX_VALUE TEST_RUNS EG_TO_FIND (by decide) (by decide)

theorem put_int_nonneg (t : Int) (runs : Nat) (ht : 0 ≤ t) :
    put_int (t.tdiv runs) = Nat.repr (t.toNat / runs) ∧ 0 ≤ t.tdiv runs := by
  obtain ⟨a, rfl⟩ := Int.eq_ofNat_of_zero_le ht
  have h : ((a : Nat) : Int).tdiv (runs : Int) = ((a / runs : Nat) : Int) :=
    (Int.ofNat_tdiv a runs).symm
  rw [h]
  refine ⟨?_, Int.ofNat_nonneg _⟩
  unfold put_int
  rw [if_neg (not_lt.mpr (Int.ofNat_nonneg _)), Int.natAbs_ofNat, Int.toNat_ofNat]

/-- C6: for non-negative elapsed nanosecond counts, the line that `main` writes is
`vector<pair<int>>: A<TAB>map<int, int>: B<TAB>unordered_map<int>: Cns` and a newline, where
`A`, `B`, `C` are the decimal renderings of the three counts divided by `TEST_RUNS` = 1000
with the remainder dropped; each quotient is non-negative. -/
theorem report_line (t_intv t_mapv t_u_mapv : Int)
    (h1 : 0 ≤ t_intv) (h2 : 0 ≤ t_mapv) (h3 : 0 ≤ t_u_mapv) :
    report TEST_RUNS t_intv t_mapv t_u_mapv =
        "vector<pair<int>>: " ++ Nat.repr (t_intv.toNat / 1000)
          ++ "\tmap<int, int>: " ++ Nat.repr (t_mapv.toNat / 1000)
          ++ "\tunordered_map<int>: " ++ Nat.repr (t_u_mapv.toNat / 1000)
          ++ "ns" ++ "\n"
      ∧ 0 ≤ t_intv.tdiv 1000 ∧ 0 ≤ t_mapv.tdiv 1000 ∧ 0 ≤ t_u_mapv.tdiv 1000 := by
  have e1 := put_int_nonneg t_intv TEST_RUNS h1
  have e2 := put_int_nonneg t_mapv TEST_RUNS h2
  have e3 := put_int_nonneg t_u_mapv TEST_RUNS h3
  refine ⟨?_, e1.2, e2.2, e3.2⟩
  unfold report
  rw [e1.1, e2.1, e3.1]
  rfl

/-- Elapsed times of 123456, 999 and 1000 nanoseconds give the averages 123, 0 and 1. -/
theorem report_line_witness :
    report TEST_RUNS 123456 999 1000 =
        "vector<pair<int>>: " ++ Nat.repr ((123456 : Int).toNat / 1000)
          ++ "\tmap<int, int>: " ++ Nat.repr ((999 : Int).toNat / 1000)
          ++ "\tunordered_map<int>: " ++ Nat.repr ((1000 : Int).toNat / 1000)
          ++ "ns" ++ "\n"
      ∧ 0 ≤ (123456 : Int).tdiv 1000 ∧ 0 ≤ (999 : Int).tdiv 1000
      ∧ 0 ≤ (1000 : Int).tdiv 1000 :=
  report_line 123456 999 1000 (by decide) (by decide) (by decide)

/-! ## Lemmas on the loops of stats_eg.cpp -/

theorem count_if_loop_eq {α : Type} (pred : α → Bool) (l : List α) (n : Int) :
    count_if_loop pred l n = n + (l.countP pred : Nat) := by
  induction l generalizing n with
  | nil => simp [count_if_loop]
  | cons x rest ih =>
    rw [count_if_loop, ih, List.countP_cons]
    by_cases h : pred x = true
    · simp [h]
      omega
    · simp [h]

theorem count_if_eq {α : Type} (pred : α → Bool) (l : List α) :
    count_if pred l = (l.countP pred : Nat) := by
  simp [count_if, count_if_loop_eq]

theorem to_int_of_range (x : Int) (h0 : INT_MIN ≤ x) (h1 : x ≤ INT_MAX) : to_int x = x := by
  unfold INT_MIN at h0
  unfold INT_MAX at h1
  unfold to_int
  omega

theorem range_loop_eq (l : List GameResult) :
    ∀ n : Int, 0 ≤ n →
      n + (l.countP (fun gr => decide (gr.home_score > gr.away_score)) : Nat) ≤ INT_MAX →
      l.foldl (fun home_won gr =>
          if gr.home_score > gr.away_score then to_int (home_won + 1) else home_won) n
        = n + (l.countP (fun gr => decide (gr.home_score > gr.away_score)) : Nat) := by
  induction l with
  | nil => simp
  | cons x rest ih =>
    intro n h0 hmax
    rw [List.countP_cons] at hmax ⊢
    rw [List.foldl_cons]
    by_cases h : x.home_score > x.away_score
    · simp only [h, decide_True, if_true, Nat.cast_add, Nat.cast_one] at hmax ⊢
      have hstep : to_int (n + 1) = n + 1 :=
        to_int_of_range _ (by unfold INT_MIN; omega) (by omega)
      rw [hstep, ih (n + 1) (by omega) (by omega)]
      omega
    · simp only [h, decide_False, Bool.false_eq_true, if_false, Nat.add_zero] at hmax ⊢
      exact ih n h0 hmax

theorem home_games_won_03_loop_eq (results : List GameResult) :
    ∀ (d it : Nat) (n : Int), results.length - it = d → 0 ≤ n →
      n + ((results.drop it).countP
            (fun gr => decide (gr.home_score > gr.away_score)) : Nat) ≤ INT_MAX →
      home_games_won_03_loop results it n
        = n + ((results.drop it).countP
            (fun gr => decide (gr.home_score > gr.away_score)) : Nat) := by
  intro d
  induction d with
  | zero =>
    intro it n hd _ _
    rw [home_games_won_03_loop, dif_neg (by omega), List.drop_eq_nil_of_le (by omega)]
    simp
  | succ d ih =>
    intro it n hd h0 hmax
    have hlt : it < results.length := by omega
    rw [List.drop_eq_getElem_cons hlt, List.countP_cons] at hmax ⊢
    rw [home_games_won_03_loop, dif_pos hlt]
    by_cases h : results[it].home_score > results[it].away_score
    · simp only [h, decide_True, if_true, Nat.cast_add, Nat.cast_one] at hmax ⊢
      have hstep : to_int (n + 1) = n + 1 :=
        to_int_of_range _ (by unfold INT_MIN; omega) (by omega)
      rw [hstep, ih (it + 1) (n + 1) (by omega) (by omega) (by omega)]
      omega
    · simp only [h, decide_False, Bool.false_eq_true, if_false, Nat.add_zero] at hmax ⊢
      exact ih (it + 1) n (by omega) h0 hmax

theorem find_if_step {α : Type} (pred : α → Bool) (v : List α) (first : Nat) (x : α)
    (h : v[first]? = some x) :
    find_if pred v first = if pred x then first else find_if pred v (first + 1) := by
  obtain ⟨hlt, hx⟩ := List.getElem?_eq_some.1 h
  rw [find_if, dif_pos hlt, hx]

theorem find_if_end {α : Type} (pred : α → Bool) (v : List α) (first : Nat)
    (h : v.length ≤ first) : find_if pred v first = first := by
  rw [find_if, dif_neg (by omega)]

theorem remove_if_loop_step {α : Type} (pred : α → Bool) (v : List α) (first i : Nat) (x : α)
    (h : v[i]? = some x) :
    remove_if_loop pred v first i =
      if !pred x then remove_if_loop pred (v.set first x) (first + 1) (i + 1)
      else remove_if_loop pred v first (i + 1) := by
  obtain ⟨hlt, hx⟩ := List.getElem?_eq_some.1 h
  rw [remove_if_loop, dif_pos hlt, hx]

theorem remove_if_loop_end {α : Type} (pred : α → Bool) (v : List α) (first i : Nat)
    (h : v.length ≤ i) : remove_if_loop pred v first i = (v, first) := by
  rw [remove_if_loop, dif_neg (by omega)]

theorem getElem?_middle {α : Type} (X Z : List α) (c : α) :
    (X ++ c :: Z)[X.length]? = some c := by
  rw [List.getElem?_append_right (le_refl _)]
  simp

theorem find_if_hit {α : Type} (pred : α → Bool) (Y Z : List α) (c : α)
    (hY : ∀ y ∈ Y, pred y = false) (hc : pred c = true) :
    ∀ (X v : List α) (first : Nat), v = X ++ Y ++ c :: Z → first = X.length →
      find_if pred v first = X.length + Y.length := by
  induction Y with
  | nil =>
    intro X v first hv hfirst
    subst hv hfirst
    rw [find_if_step pred _ _ c (by simpa using getElem?_middle X Z c), if_pos hc]
    simp
  | cons y rest ih =>
    intro X v first hv hfirst
    subst hv hfirst
    have hy : pred y = false := hY y (by simp)
    rw [find_if_step pred _ _ y
      (by simpa using getElem?_middle X (rest ++ c :: Z) y)]
    simp only [hy, Bool.false_eq_true, if_false]
    rw [ih (fun z hz => hY z (by simp [hz])) (X ++ [y]) _ _ (by simp) (by simp)]
    simp
    omega

theorem find_if_miss {α : Type} (pred : α → Bool) (Y : List α)
    (hY : ∀ y ∈ Y, pred y = false) :
    ∀ (X v : List α) (first : Nat), v = X ++ Y → first = X.length →
      find_if pred v first = X.length + Y.length := by
  induction Y with
  | nil =>
    intro X v first hv hfirst
    subst hv hfirst
    rw [find_if_end pred _ _ (by simp)]
    simp
  | cons y rest ih =>
    intro X v first hv hfirst
    subst hv hfirst
    have hy : pred y = false := hY y (by simp)
    rw [find_if_step pred _ _ y (getElem?_middle X rest y)]
    simp only [hy, Bool.false_eq_true, if_false]
    rw [ih (fun z hz => hY z (by simp [hz])) (X ++ [y]) _ _ (by simp) (by simp)]
    simp
    omega

theorem remove_if_loop_spec {α : Type} (pred : α → Bool) (C : List α) :
    ∀ (A B v : List α) (first i : Nat), B ≠ [] → v = A ++ B ++ C →
      first = A.length → i = A.length + B.length →
      (remove_if_loop pred v first i).1.take (remove_if_loop pred v first i).2
        = A ++ C.filter (fun x => !pred x) := by
  induction C with
  | nil =>
    intro A B v first i _ hv hfirst hi
    subst hv hfirst hi
    rw [remove_if_loop_end pred _ _ _ (by simp)]
    simp
  | cons c rest ih =>
    intro A B v first i hB hv hfirst hi
    subst hv hfirst hi
    obtain ⟨b, B', rfl⟩ := List.exists_cons_of_ne_nil hB
    have hget : (A ++ b :: B' ++ c :: rest)[A.length + (b :: B').length]? = some c := by
      rw [← List.length_append]
      exact getElem?_middle _ _ _
    rw [remove_if_loop_step pred _ _ _ c hget]
    by_cases hc : pred c = true
    · simp only [hc, Bool.not_true, Bool.false_eq_true, if_false]
      rw [ih A (b :: B' ++ [c]) _ _ _ (by simp) (by simp) rfl (by simp; omega)]
      simp [hc]
    · have hc' : pred c = false := by simpa using hc
      simp only [hc', Bool.not_false, if_true]
      have hset : (A ++ b :: B' ++ c :: rest).set A.length c
          = (A ++ [c]) ++ (B' ++ [c]) ++ rest := by
        simp [List.set_append]
      rw [ih (A ++ [c]) (B' ++ [c]) _ _ _ (by simp) hset (by simp) (by simp; omega)]
      simp [hc']

theorem split_at_first {α : Type} (pred : α → Bool) (v : List α) :
    (∀ y ∈ v, pred y = false)
      ∨ ∃ (Y : List α) (c : α) (Z : List α),
          v = Y ++ c :: Z ∧ (∀ y ∈ Y, pred y = false) ∧ pred c = true := by
  induction v with
  | nil => left; simp
  | cons x rest ih =>
    by_cases hx : pred x = true
    · right
      exact ⟨[], x, rest, rfl, by simp, hx⟩
    · have hx' : pred x = false := by simpa using hx
      rcases ih with h | ⟨Y, c, Z, rfl, hY, hc⟩
      · left
        intro y hy
        rcases List.mem_cons.1 hy with rfl | hy
        · exact hx'
        · exact h y hy
      · right
        refine ⟨x :: Y, c, Z, rfl, ?_, hc⟩
        intro y hy
        rcases List.mem_cons.1 hy with rfl | hy
        · exact hx'
        · exact hY y hy

theorem filter_all {α : Type} (pred : α → Bool) (Y : List α) (hY : ∀ y ∈ Y, pred y = false) :
    Y.filter (fun x => !pred x) = Y := by
  rw [List.filter_eq_self]
  intro y hy
  simp [hY y hy]

theorem erase_remove_if {α : Type} (pred : α → Bool) (v : List α) :
    erase (remove_if pred v).1 (remove_if pred v).2 (remove_if pred v).1.length
      = v.filter (fun x => !pred x) := by
  have hdrop : ∀ (w : List α) (k : Nat), erase w k w.length = w.take k := by
    intro w k
    simp [erase]
  rw [hdrop]
  unfold remove_if
  rcases split_at_first pred v with h | ⟨Y, c, Z, rfl, hY, hc⟩
  · have hf := find_if_miss pred v h [] v 0 (by simp) rfl
    simp only [List.nil_append, List.length_nil, Nat.zero_add] at hf
    simp only [hf, lt_irrefl, if_false]
    rw [filter_all pred v h]
    simp
  · have hf := find_if_hit pred Y Z c hY hc [] (Y ++ c :: Z) 0 (by simp) rfl
    simp only [List.nil_append, List.length_nil, Nat.zero_add] at hf
    simp only [hf]
    rw [if_pos (by simp)]
    rw [remove_if_loop_spec pred Z Y [c] _ _ _ (by simp) (by simp) rfl (by simp)]
    simp [filter_all pred Y hY, hc]

/-! ## Claims on stats_eg.cpp -/

/-- C7, as the code has it: for every vector of results in which the number of home wins is
at most `INT_MAX` (2^31 - 1), the three counting functions agree,
`home_games_won_alg = home_games_won = home_games_won_03`, and each equals the number of
results whose `home_score` is strictly greater than `away_score`. -/
theorem home_games_won_agree (results : List GameResult)
    (hfit : ((results.countP (fun gr => decide (gr.home_score > gr.away_score)) : Nat) : Int)
      ≤ INT_MAX) :
    home_games_won_alg results = home_games_won results
      ∧ home_games_won results = home_games_won_03 results
      ∧ home_games_won_03 results
          = ((results.countP (fun gr => decide (gr.home_score > gr.away_score)) : Nat) : Int) := by
  have h1 : home_games_won_alg results
      = ((results.countP (fun gr => decide (gr.home_score > gr.away_score)) : Nat) : Int) := by
    unfold home_games_won_alg
    rw [count_if_eq]
    exact to_int_of_range _ (by unfold INT_MIN; omega) hfit
  have h2 : home_games_won results
      = ((results.countP (fun gr => decide (gr.home_score > gr.away_score)) : Nat) : Int) := by
    unfold home_games_won
    rw [range_loop_eq results 0 (le_refl 0) (by simpa using hfit)]
    simp
  have h3 : home_games_won_03 results
      = ((results.countP (fun gr => decide (gr.home_score > gr.away_score)) : Nat) : Int) := by
    unfold home_games_won_03
    rw [home_games_won_03_loop_eq results _ 0 0 rfl (le_refl 0) (by simpa using hfit)]
    simp
  exact ⟨h1.trans h2.symm, h2.trans h3.symm, h3⟩

/-- Three results, two of them home wins: the three functions return 2. -/
theorem home_games_won_agree_witness :
    home_games_won_alg [⟨"Brighton", "Leeds", 2, 0⟩, ⟨"Leeds", "Derby", 1, 1⟩,
        ⟨"Derby", "Brighton", 3, 1⟩]
      = home_games_won [⟨"Brighton", "Leeds", 2, 0⟩, ⟨"Leeds", "Derby", 1, 1⟩,
        ⟨"Derby", "Brighton", 3, 1⟩]
    ∧ home_games_won [⟨"Brighton", "Leeds", 2, 0⟩, ⟨"Leeds", "Derby", 1, 1⟩,
        ⟨"Derby", "Brighton", 3, 1⟩]
      = home_games_won_03 [⟨"Brighton", "Leeds", 2, 0⟩, ⟨"Leeds", "Derby", 1, 1⟩,
        ⟨"Derby", "Brighton", 3, 1⟩]
    ∧ home_games_won_03 [⟨"Brighton", "Leeds", 2, 0⟩, ⟨"Leeds", "Derby", 1, 1⟩,
        ⟨"Derby", "Brighton", 3, 1⟩]
      = ((([⟨"Brighton", "Leeds", 2, 0⟩, ⟨"Leeds", "Derby", 1, 1⟩,
        ⟨"Derby", "Brighton", 3, 1⟩] : List GameResult).countP
          (fun gr => decide (gr.home_score > gr.away_score)) : Nat) : Int) :=
  home_games_won_agree [⟨"Brighton", "Leeds", 2, 0⟩, ⟨"Leeds", "Derby", 1, 1⟩,
    ⟨"Derby", "Brighton", 3, 1⟩] (by decide)

/-- C7 as stated fails on a vector of 2^31 home wins: `std::count_if` returns 2147483648, and
`home_games_won_alg` stores it in an `int`, which gives -2147483648. -/
theorem home_games_won_alg_wraps :
    home_games_won_alg (List.replicate 2147483648 ⟨"Brighton", "Leeds", 1, 0⟩) = -2147483648
      ∧ (((List.replicate 2147483648 (⟨"Brighton", "Leeds", 1, 0⟩ : GameResult)).countP
          (fun gr => decide (gr.home_score > gr.away_score)) : Nat) : Int) = 2147483648
      ∧ home_games_won_alg (List.replicate 2147483648 ⟨"Brighton", "Leeds", 1, 0⟩)
        ≠ (((List.replicate 2147483648 (⟨"Brighton", "Leeds", 1, 0⟩ : GameResult)).countP
          (fun gr => decide (gr.home_score > gr.away_score)) : Nat) : Int) := by
  have hc : ∀ n : Nat, (List.replicate n (⟨"Brighton", "Leeds", 1, 0⟩ : GameResult)).countP
      (fun gr => decide (gr.home_score > gr.away_score)) = n := by
    intro n
    rw [List.countP_replicate]
    rfl
  have hv : ∀ n : Nat,
      home_games_won_alg (List.replicate n ⟨"Brighton", "Leeds", 1, 0⟩) = to_int n := by
    intro n
    unfold home_games_won_alg
    rw [count_if_eq]
    have : (List.replicate n (⟨"Brighton", "Leeds", 1, 0⟩ : GameResult)).countP IsHomeWin
        = n := hc n
    rw [this]
  have hw : to_int ((2147483648 : Nat) : Int) = -2147483648 := by decide
  rw [hv, hc, hw]
  exact ⟨rfl, rfl, by decide⟩

/-- C8 at the single result "Leeds 2 - 0 Brighton": Brighton is the away side and loses, so
no home game was won by Brighton, yet `print_brighton_stats` prints
"1 home games were won by Brighton"; `brighton_played` is 1, as it should be. -/
theorem brighton_home_win_counts_away_defeat :
    (print_brighton_stats [⟨"Leeds", "Brighton", 2, 0⟩]).brighton_home_win = 1
      ∧ ([⟨"Leeds", "Brighton", 2, 0⟩] : List GameResult).countP
          (fun gr => decide (gr.home_team = "Brighton" ∧ gr.home_score > gr.away_score)) = 0
      ∧ (print_brighton_stats [⟨"Leeds", "Brighton", 2, 0⟩]).brighton_played = 1 := by
  refine ⟨by decide, by decide, by decide⟩

/-- C9, as the code has it: for every vector of results, after the `erase(remove_if(...))`
step of `print_brighton_stats` the vector is the subsequence of the original results in
which neither side is "Brighton", in the original order, and no remaining result involves
Brighton; and when the number of results that involve Brighton is at most `INT_MAX`
(2^31 - 1), the size printed after the erase is the size printed before it minus
`brighton_played`. -/
theorem erase_removes_brighton (results : List GameResult) :
    (print_brighton_stats results).results
        = results.filter
            (fun gr => decide (gr.home_team ≠ "Brighton" ∧ gr.away_team ≠ "Brighton"))
      ∧ (print_brighton_stats results).results.Sublist results
      ∧ (∀ gr ∈ (print_brighton_stats results).results,
          gr.home_team ≠ "Brighton" ∧ gr.away_team ≠ "Brighton")
      ∧ (print_brighton_stats results).size_before = results.length
      ∧ (print_brighton_stats results).size_after
          = (print_brighton_stats results).results.length
      ∧ (((results.countP (fun gr =>
              decide (gr.home_team = "Brighton" ∨ gr.away_team = "Brighton")) : Nat) : Int)
            ≤ INT_MAX →
          ((print_brighton_stats results).size_after : Int)
            = ((print_brighton_stats results).size_before : Int)
              - (print_brighton_stats results).brighton_played) := by
  have hpred : (fun gr : GameResult => !brighton_pred gr)
      = (fun gr => decide (gr.home_team ≠ "Brighton" ∧ gr.away_team ≠ "Brighton")) := by
    funext gr
    simp [brighton_pred, IsNamedTeam, eq_comm]
  have hpred2 : brighton_pred
      = (fun gr => decide (gr.home_team = "Brighton" ∨ gr.away_team = "Brighton")) := by
    funext gr
    simp [brighton_pred, IsNamedTeam, eq_comm]
  have hres : (print_brighton_stats results).results
      = results.filter
          (fun gr => decide (gr.home_team ≠ "Brighton" ∧ gr.away_team ≠ "Brighton")) := by
    rw [← hpred]
    exact erase_remove_if brighton_pred results
  refine ⟨hres, ?_, ?_, rfl, rfl, ?_⟩
  · rw [hres]
    exact List.filter_sublist _
  · intro gr hgr
    rw [hres] at hgr
    simpa using (List.mem_filter.1 hgr).2
  · intro hfit
    rw [← hpred2] at hfit
    have hlen : (print_brighton_stats results).size_after
        = (results.filter (fun gr => !brighton_pred gr)).length := by
      rw [hpred, ← hres]
      rfl
    have hplayed : (print_brighton_stats results).brighton_played
        = ((results.countP brighton_pred : Nat) : Int) := by
      have h0 : (print_brighton_stats results).brighton_played
          = to_int (count_if brighton_pred results) := rfl
      rw [h0, count_if_eq]
      exact to_int_of_range _ (by unfold INT_MIN; omega) hfit
    have hsize : (print_brighton_stats results).size_before = results.length := rfl
    rw [hlen, hplayed, hsize, ← List.countP_eq_length_filter,
      List.length_eq_countP_add_countP brighton_pred results]
    simp

/-- Three results, two of them with Brighton: the size goes from 3 to 1, and
`brighton_played` is 2. -/
theorem erase_removes_brighton_witness :
    ((([⟨"Brighton", "Leeds", 2, 0⟩, ⟨"Leeds", "Derby", 1, 1⟩,
        ⟨"Derby", "Brighton", 3, 1⟩] : List GameResult).countP (fun gr =>
          decide (gr.home_team = "Brighton" ∨ gr.away_team = "Brighton")) : Nat) : Int)
        ≤ INT_MAX
    ∧ ((print_brighton_stats [⟨"Brighton", "Leeds", 2, 0⟩, ⟨"Leeds", "Derby", 1, 1⟩,
        ⟨"Derby", "Brighton", 3, 1⟩]).size_after : Int)
      = ((print_brighton_stats [⟨"Brighton", "Leeds", 2, 0⟩, ⟨"Leeds", "Derby", 1, 1⟩,
        ⟨"Derby", "Brighton", 3, 1⟩]).size_before : Int)
        - (print_brighton_stats [⟨"Brighton", "Leeds", 2, 0⟩, ⟨"Leeds", "Derby", 1, 1⟩,
        ⟨"Derby", "Brighton", 3, 1⟩]).brighton_played :=
  ⟨by decide,
    (erase_removes_brighton [⟨"Brighton", "Leeds", 2, 0⟩, ⟨"Leeds", "Derby", 1, 1⟩,
      ⟨"Derby", "Brighton", 3, 1⟩]).2.2.2.2.2 (by decide)⟩

/-- C9 as stated fails on a vector of 2^31 results that all involve Brighton: the size
printed before the erase is 2147483648, the size printed after it is 0, and
`brighton_played`, an `int`, is -2147483648, so "before minus played" is 4294967296. -/
theorem brighton_played_wraps :
    (print_brighton_stats
        (List.replicate 2147483648 ⟨"Brighton", "Leeds", 1, 0⟩)).size_before = 2147483648
      ∧ (print_brighton_stats
        (List.replicate 2147483648 ⟨"Brighton", "Leeds", 1, 0⟩)).size_after = 0
      ∧ (print_brighton_stats
        (List.replicate 2147483648 ⟨"Brighton", "Leeds", 1, 0⟩)).brighton_played = -2147483648
      ∧ ((print_brighton_stats
          (List.replicate 2147483648 ⟨"Brighton", "Leeds", 1, 0⟩)).size_after : Int)
        ≠ ((print_brighton_stats
          (List.replicate 2147483648 ⟨"Brighton", "Leeds", 1, 0⟩)).size_before : Int)
          - (print_brighton_stats
          (List.replicate 2147483648 ⟨"Brighton", "Leeds", 1, 0⟩)).brighton_played := by
  have hb : ∀ n : Nat, (print_brighton_stats
      (List.replicate n ⟨"Brighton", "Leeds", 1, 0⟩)).size_before = n := by
    intro n
    exact List.length_replicate n _
  have ha : ∀ n : Nat, (print_brighton_stats
      (List.replicate n ⟨"Brighton", "Leeds", 1, 0⟩)).size_after = 0 := by
    intro n
    have h0 : (print_brighton_stats (List.replicate n ⟨"Brighton", "Leeds", 1, 0⟩)).size_after
        = (erase (remove_if brighton_pred (List.replicate n ⟨"Brighton", "Leeds", 1, 0⟩)).1
            (remove_if brighton_pred (List.replicate n ⟨"Brighton", "Leeds", 1, 0⟩)).2
            (remove_if brighton_pred
              (List.replicate n ⟨"Brighton", "Leeds", 1, 0⟩)).1.length).length := rfl
    rw [h0, erase_remove_if, List.filter_replicate]
    rfl
  have hp : ∀ n : Nat, (print_brighton_stats
      (List.replicate n ⟨"Brighton", "Leeds", 1, 0⟩)).brighton_played = to_int n := by
    intro n
    have h0 : (print_brighton_stats
        (List.replicate n ⟨"Brighton", "Leeds", 1, 0⟩)).brighton_played
        = to_int (count_if brighton_pred (List.replicate n ⟨"Brighton", "Leeds", 1, 0⟩)) := rfl
    rw [h0, count_if_eq, List.countP_replicate]
    rfl
  have hw : to_int ((2147483648 : Nat) : Int) = -2147483648 := by decide
  rw [hb, ha, hp, hw]
  exact ⟨rfl, rfl, rfl, by decide⟩

theorem readCSV_loop_eof (junk : Int × Int) (fuel : Nat) (rest : List Char) (fb : Bool)
    (results : List GameResult) :
    readCSV_loop junk fuel ⟨rest, true, fb⟩ results = some results := by
  cases fuel <;> simp [readCSV_loop]

theorem readCSV_loop_step (junk : Int × Int) (fuel : Nat) (rest : List Char) (fb : Bool)
    (results : List GameResult) :
    readCSV_loop junk (fuel + 1) ⟨rest, false, fb⟩ results
      = readCSV_loop junk fuel
          (get_int (get_int (get_string (get_string ⟨rest, false, fb⟩ "").1 "").1 junk.1).1
            junk.2).1
          (results ++ [⟨(get_string ⟨rest, false, fb⟩ "").2,
            (get_string (get_string ⟨rest, false, fb⟩ "").1 "").2,
            (get_int (get_string (get_string ⟨rest, false, fb⟩ "").1 "").1 junk.1).2,
            (get_int (get_int (get_string (get_string ⟨rest, false, fb⟩ "").1 "").1 junk.1).1
              junk.2).2⟩]) := by
  rw [readCSV_loop]
  simp

/-- C10 on the one-record file "Brighton Leeds 2 0": read without a final newline,
`readCSV` appends the one result; read with a final newline it appends two, the second with
empty names and indeterminate scores (`junk`); on the empty file it appends one such
result.  This holds for every amount of fuel from 2 on. -/
theorem readCSV_trailing_newline (fuel : Nat) (junk : Int × Int) :
    readCSV (some ['B', 'r', 'i', 'g', 'h', 't', 'o', 'n', ' ', 'L', 'e', 'e', 'd', 's', ' ',
        '2', ' ', '0']) (fuel + 2) junk []
      = some [⟨"Brighton", "Leeds", 2, 0⟩]
    ∧ readCSV (some ['B', 'r', 'i', 'g', 'h', 't', 'o', 'n', ' ', 'L', 'e', 'e', 'd', 's', ' ',
        '2', ' ', '0', '\n']) (fuel + 2) junk []
      = some [⟨"Brighton", "Leeds", 2, 0⟩, ⟨"", "", junk.1, junk.2⟩]
    ∧ readCSV (some []) (fuel + 2) junk [] = some [⟨"", "", junk.1, junk.2⟩] := by
  have e1 : ∀ tail : List Char, tail = [' ', '2', ' ', '0'] ∨ tail = [' ', '2', ' ', '0', '\n'] →
      get_string ⟨'B' :: 'r' :: 'i' :: 'g' :: 'h' :: 't' :: 'o' :: 'n' :: ' ' :: 'L' :: 'e'
          :: 'e' :: 'd' :: 's' :: tail, false, false⟩ ""
        = (⟨' ' :: 'L' :: 'e' :: 'e' :: 'd' :: 's' :: tail, false, false⟩, "Brighton") := by
    rintro tail (rfl | rfl) <;> decide
  have e2 : ∀ tail : List Char, tail = [' ', '2', ' ', '0'] ∨ tail = [' ', '2', ' ', '0', '\n'] →
      get_string ⟨' ' :: 'L' :: 'e' :: 'e' :: 'd' :: 's' :: tail, false, false⟩ ""
        = (⟨tail, false, false⟩, "Leeds") := by
    rintro tail (rfl | rfl) <;> decide
  have e3 : ∀ (tail : List Char) (old : Int), tail = [' ', '0'] ∨ tail = [' ', '0', '\n'] →
      get_int ⟨' ' :: '2' :: tail, false, false⟩ old = (⟨tail, false, false⟩, 2) := by
    rintro tail old (rfl | rfl) <;> rfl
  have e4 : ∀ old : Int, get_int ⟨[' ', '0'], false, false⟩ old = (⟨[], true, false⟩, 0) :=
    fun _ => rfl
  have e5 : ∀ old : Int,
      get_int ⟨[' ', '0', '\n'], false, false⟩ old = (⟨['\n'], false, false⟩, 0) :=
    fun _ => rfl
  have e6 : ∀ old : String,
      get_string ⟨['\n'], false, false⟩ old = (⟨[], true, true⟩, old) :=
    fun _ => rfl
  have e7 : ∀ old : String, get_string ⟨[], false, false⟩ old = (⟨[], true, true⟩, old) :=
    fun _ => rfl
  have e8 : ∀ old : String, get_string ⟨[], true, true⟩ old = (⟨[], true, true⟩, old) :=
    fun _ => rfl
  have e9 : ∀ old : Int, get_int ⟨[], true, true⟩ old = (⟨[], true, true⟩, old) :=
    fun _ => rfl
  have hfuel : fuel + 2 = fuel + 1 + 1 := rfl
  refine ⟨?_, ?_, ?_⟩
  · simp only [readCSV]
    rw [hfuel, readCSV_loop_step, e1 _ (Or.inl rfl), e2 _ (Or.inl rfl),
      e3 _ _ (Or.inl rfl), e4]
    exact readCSV_loop_eof _ _ _ _ _
  · simp only [readCSV]
    rw [hfuel, readCSV_loop_step, e1 _ (Or.inr rfl), e2 _ (Or.inr rfl),
      e3 _ _ (Or.inr rfl), e5, readCSV_loop_step, e6, e8, e9, e9]
    exact readCSV_loop_eof _ _ _ _ _
  · simp only [readCSV]
    rw [hfuel, readCSV_loop_step, e7, e8, e9, e9]
    exact readCSV_loop_eof _ _ _ _ _

end FootballScores
